import Mathlib

/-!
Shallow embedding of the periodic scheduling and aggregation engine of the
telegram-bot repository (shift check-in bot under `app/`, wishlist bot in the
top-level `scheduler.py`/`storage.py`), together with theorems settling the
frozen claims about it.

Conventions of the embedding:
* instants (UTC or local wall clock) are `Int` seconds; a calendar day is the
  Euclidean quotient by 86400 and a time of day the Euclidean remainder, so
  Python `datetime.date()` / `time()` / `weekday()` become integer arithmetic
  (the Unix epoch 1970-01-01 was a Thursday, Python weekday 3);
* an IANA timezone is modelled as a name resolved through a finite table of
  fixed offsets; `pytz.timezone` raising `UnknownTimeZoneError` on an unknown
  name becomes an `Except` failure of the lookup;
* database tables are lists of records, a SQLAlchemy `select ... where` is a
  `List.filter`, `scalar_one_or_none` a `List.find?`, and the session-level
  iteration of a periodic tick a fold that, like the Python code, carries no
  per-chat exception handler unless the source has one.
-/

namespace ShiftBot

/-- Shift check-in window kinds (`CheckinType` in `app/models.py`). -/
inductive CheckinType where
  | MORNING
  | EVENING
deriving DecidableEq, Repr

/-- Membership roles (`RoleEnum` in `app/models.py`). -/
inductive RoleEnum where
  | OPERATOR
  | MANAGER
deriving DecidableEq, Repr

/-- Seconds in a calendar day. -/
def secPerDay : Int := 86400

/-- Calendar day of an instant (Python `datetime.date()` as an epoch day count). -/
def dayOf (t : Int) : Int := t / secPerDay

/-- Time of day of an instant in seconds (Python `datetime.timetz()`). -/
def timeOfDay (t : Int) : Int := t % secPerDay

/-- Python `datetime.weekday()`: 0 = Monday .. 6 = Sunday; the epoch day 0 was
a Thursday (weekday 3). -/
def weekday (t : Int) : Int := ((dayOf t) % 7 + 3) % 7

/-- Telegram user row (`User` in `app/models.py`; the fields the embedded
handlers read). -/
structure UserRec where
  id : Nat
  telegram_id : Nat
deriving DecidableEq, Repr

/-- Chat row (`Chat` in `app/models.py`): `id` is the primary key, `chat_id`
the Telegram identifier, `timezone` an IANA name. -/
structure Chat where
  id : Nat
  chat_id : Int
  timezone : String
deriving DecidableEq, Repr

/-- Membership row (`Membership` in `app/models.py`). -/
structure Membership where
  user_id : Nat
  chat_id : Nat
  role : RoleEnum
  authorized : Bool
deriving DecidableEq, Repr

/-- Check-in row (`Checkin` in `app/models.py`); `checkin_date` is an epoch
day count, `created_at` an instant. -/
structure Checkin where
  user_id : Nat
  chat_id : Nat
  type : CheckinType
  photo_file_id : String
  file_unique_id : String
  created_at : Int
  checkin_date : Int
deriving DecidableEq, Repr

/-- Settings row (`ChatSettings` in `app/models.py`); `chat_id = none` is the
global default row, window bounds are times of day in seconds. -/
structure ChatSettings where
  chat_id : Option Nat
  morning_start : Int
  morning_end : Int
  evening_start : Int
  evening_end : Int
  alerts_enabled : Bool
  include_weekends : Bool
  timezone : String
deriving DecidableEq, Repr

/-- The mutable payload fields of a daily rollup row: exactly the keys of the
`payload` dict built in `_aggregate_for_chat` (`app/scheduler.py`). -/
structure DailyStatData where
  chat_id : Nat
  date : Int
  morning_cnt : Nat
  evening_cnt : Nat
  total_operators : Nat
  misses_morning : List Nat
  misses_evening : List Nat
  created_at : Int
deriving DecidableEq, Repr

/-- Daily rollup row (`DailyStat` in `app/models.py`): a surrogate primary key
plus the payload fields. -/
structure DailyStat where
  id : Nat
  data : DailyStatData
deriving DecidableEq, Repr

/-- The relational store of the shift bot plus the timezone table standing in
for the IANA database, and the id sequence for `daily_stats`. -/
structure Db where
  users : List UserRec
  chats : List Chat
  memberships : List Membership
  checkins : List Checkin
  settingsRows : List ChatSettings
  daily_stats : List DailyStat
  nextStatId : Nat
  tzTable : List (String × Int)
deriving DecidableEq, Repr

/-- `pytz.timezone(name)`: resolve a timezone name to its fixed offset in
seconds, failing like `UnknownTimeZoneError` on an unknown name. -/
def lookupTz (table : List (String × Int)) (name : String) : Except String Int :=
  match table.find? (fun p => p.1 = name) with
  | some p => Except.ok p.2
  | none => Except.error "UnknownTimeZoneError"

/-- `ShiftScheduler._get_effective_settings`: the chat-specific settings row if
one exists, else the global default row (`chat_id IS NULL`), else none. -/
def getEffectiveSettings (db : Db) (chatId : Nat) : Option ChatSettings :=
  match db.settingsRows.find? (fun s => s.chat_id = some chatId) with
  | some s => some s
  | none => db.settingsRows.find? (fun s => s.chat_id = none)

/-- `ShiftScheduler._determine_window`: morning containment is checked first,
then evening, else no window. -/
def determineWindow (s : ChatSettings) (now : Int) : Option CheckinType :=
  if s.morning_start ≤ now ∧ now ≤ s.morning_end then some CheckinType.MORNING
  else if s.evening_start ≤ now ∧ now ≤ s.evening_end then some CheckinType.EVENING
  else none

/-- The `where` clause of the reminder roster query in
`_notify_missing_checkins`: chat membership, role OPERATOR, `authorized IS
true`. -/
def authOperatorPred (chatId : Nat) (m : Membership) : Bool :=
  decide (m.chat_id = chatId ∧ m.role = RoleEnum.OPERATOR ∧ m.authorized = true)

/-- The `where` clause of the aggregation roster query in
`_aggregate_for_chat`: chat membership and role OPERATOR (the source has no
`authorized` condition here). -/
def operatorPred (chatId : Nat) (m : Membership) : Bool :=
  decide (m.chat_id = chatId ∧ m.role = RoleEnum.OPERATOR)

/-- The `where` clause of the check-in query in `_notify_missing_checkins`:
chat, window kind and local date. -/
def checkinKeyPred (chatId : Nat) (window : CheckinType) (d : Int) (c : Checkin) : Bool :=
  decide (c.chat_id = chatId ∧ c.type = window ∧ c.checkin_date = d)

/-- The `where` clause of the check-in query in `_aggregate_for_chat`: chat and
target date, both windows. -/
def dateChatPred (chatId : Nat) (d : Int) (c : Checkin) : Bool :=
  decide (c.chat_id = chatId ∧ c.checkin_date = d)

/-- `ShiftScheduler._notify_missing_checkins`: load the chat's authorized
OPERATOR memberships and the check-ins of the given window and local date, and
dispatch a reminder listing the operators without one.  `none` means no
reminder is sent (empty roster or nobody missing); `some missing` means a
reminder listing `missing` is dispatched. -/
def notifyMissing (db : Db) (chat : Chat) (window : CheckinType) (d : Int) :
    Option (List Membership) :=
  let operators := db.memberships.filter (authOperatorPred chat.id)
  if operators.isEmpty then none
  else
    let doneIds : List Nat := (db.checkins.filter (checkinKeyPred chat.id window d)).map
      (fun c => c.user_id)
    let missing := operators.filter (fun m => decide (m.user_id ∉ doneIds))
    if missing.isEmpty then none else some missing

/-- The `(user_id, type)` rows loaded by `_aggregate_for_chat` for the chat and
target date, restricted to one window kind (the comprehensions
`sum(1 for u, t in rows if t == ...)` and `{u for u, t in rows if t == ...}`
both range over this list). -/
def windowRows (db : Db) (chatId : Nat) (targetDate : Int) (w : CheckinType) :
    List (Nat × CheckinType) :=
  ((db.checkins.filter (dateChatPred chatId targetDate)).map
    (fun c => (c.user_id, c.type))).filter (fun r => decide (r.2 = w))

/-- The `payload` dict built by `ShiftScheduler._aggregate_for_chat`: roster is
every OPERATOR membership of the chat (no `authorized` filter in the source),
check-in rows of the target date are partitioned by window kind, and `now` is
the value of `datetime.utcnow()` stored as `created_at`. -/
def aggregatePayload (db : Db) (chat : Chat) (targetDate : Int) (now : Int) :
    DailyStatData :=
  let total := db.memberships.filter (operatorPred chat.id)
  let morningUsers : List Nat :=
    (windowRows db chat.id targetDate CheckinType.MORNING).map (fun r => r.1)
  let eveningUsers : List Nat :=
    (windowRows db chat.id targetDate CheckinType.EVENING).map (fun r => r.1)
  { chat_id := chat.id
    date := targetDate
    morning_cnt := (windowRows db chat.id targetDate CheckinType.MORNING).length
    evening_cnt := (windowRows db chat.id targetDate CheckinType.EVENING).length
    total_operators := total.length
    misses_morning :=
      (total.filter (fun m => decide (m.user_id ∉ morningUsers))).map (fun m => m.user_id)
    misses_evening :=
      (total.filter (fun m => decide (m.user_id ∉ eveningUsers))).map (fun m => m.user_id)
    created_at := now }

/-- The upsert at the end of `_aggregate_for_chat`: if a `DailyStat` row for
`(chat_id, date)` exists its payload fields are overwritten in place (the
source `setattr` loop on the row found by `scalar_one_or_none`, which assumes
at most one such row), otherwise a fresh row is added. -/
def upsertStat (db : Db) (payload : DailyStatData) : Db :=
  let overwrite := fun (st : DailyStat) =>
    if st.data.chat_id = payload.chat_id ∧ st.data.date = payload.date then
      { st with data := payload }
    else st
  if db.daily_stats.any
      (fun st => decide (st.data.chat_id = payload.chat_id ∧ st.data.date = payload.date)) then
    { db with daily_stats := db.daily_stats.map overwrite }
  else
    { db with
        daily_stats := db.daily_stats ++ [{ id := db.nextStatId, data := payload }]
        nextStatId := db.nextStatId + 1 }

/-- `ShiftScheduler._aggregate_for_chat`: skip the chat when no settings row
resolves, otherwise compute the payload and upsert it. -/
def aggregateForChat (db : Db) (chat : Chat) (targetDate : Int) (now : Int) : Db :=
  match getEffectiveSettings db chat.id with
  | none => db
  | some _ => upsertStat db (aggregatePayload db chat targetDate now)

/-- The daily-stat rows stored for a `(chat_id, date)` key. -/
def statsForKey (db : Db) (chatId : Nat) (d : Int) : List DailyStat :=
  db.daily_stats.filter (fun st => decide (st.data.chat_id = chatId ∧ st.data.date = d))

/-- Example chat for the concrete evaluations below. -/
def exChat : Chat := { id := 1, chat_id := 100, timezone := "UTC" }

/-- Example chat-specific settings row: morning 06:00-11:00, evening
16:00-23:00, weekends included, in seconds of the local day. -/
def exSettings : ChatSettings :=
  { chat_id := some 1, morning_start := 21600, morning_end := 39600,
    evening_start := 57600, evening_end := 82800,
    alerts_enabled := true, include_weekends := true, timezone := "UTC" }

/-- Example store for claim C1: one OPERATOR membership with
`authorized = false` for user 7, no check-ins. -/
def exDbUnauth : Db :=
  { users := [], chats := [exChat],
    memberships := [⟨7, 1, RoleEnum.OPERATOR, false⟩],
    checkins := [], settingsRows := [exSettings], daily_stats := [],
    nextStatId := 0, tzTable := [("UTC", 0)] }

/-- Example store for claim C2: one authorized OPERATOR for user 7 who has a
morning check-in on day 0. -/
def exDbAuth : Db :=
  { users := [⟨7, 700⟩], chats := [exChat],
    memberships := [⟨7, 1, RoleEnum.OPERATOR, true⟩],
    checkins := [⟨7, 1, CheckinType.MORNING, "photo", "uniq", 25200, 0⟩],
    settingsRows := [exSettings], daily_stats := [],
    nextStatId := 0, tzTable := [("UTC", 0)] }

/-- One dispatched reminder: target Telegram chat id, window, and the missing
memberships handed to `NotificationService.send_reminder`. -/
structure Reminder where
  chat_id : Int
  window : CheckinType
  missing : List Membership
deriving DecidableEq, Repr

/-- The body of the per-chat loop in `_remind_pending_checkins`: resolve the
timezone (`pytz.timezone` raises on an unknown name and the loop has no
per-chat handler, so the failure propagates), resolve settings (skip on none),
skip excluded weekends, classify the window (skip on none), and collect the
reminder dispatched by `_notify_missing_checkins`, if any. -/
def remindStep (db : Db) (nowUtc : Int) (acc : List Reminder) (chat : Chat) :
    Except String (List Reminder) := do
  let off ← lookupTz db.tzTable chat.timezone
  match getEffectiveSettings db chat.id with
  | none => pure acc
  | some s =>
    if s.include_weekends = false ∧ 5 ≤ weekday (nowUtc + off) then pure acc
    else
      match determineWindow s (timeOfDay (nowUtc + off)) with
      | none => pure acc
      | some w =>
        match notifyMissing db chat w (dayOf (nowUtc + off)) with
        | none => pure acc
        | some missing => pure (acc ++ [⟨chat.chat_id, w, missing⟩])

/-- `ShiftScheduler._remind_pending_checkins`: fold the per-chat step over all
chats; the result collects the dispatched reminders in chat order, and an
error from any chat's step aborts the whole tick. -/
def remindTick (db : Db) (nowUtc : Int) : Except String (List Reminder) :=
  db.chats.foldlM (remindStep db nowUtc) []

/-- The body of the per-chat loop in `_aggregate_daily_stats`: resolve the
timezone (failure propagates, as in the source), compute yesterday's local
date, and run `_aggregate_for_chat` on the session state. -/
def aggregateStep (db : Db) (nowUtc : Int) (acc : Db) (chat : Chat) :
    Except String Db := do
  let off ← lookupTz db.tzTable chat.timezone
  pure (aggregateForChat acc chat (dayOf (nowUtc + off - secPerDay)) nowUtc)

/-- `ShiftScheduler._aggregate_daily_stats`: fold the per-chat aggregation over
all chats, threading the session state; an error from any chat's step aborts
the whole tick. -/
def aggregateTick (db : Db) (nowUtc : Int) : Except String Db :=
  db.chats.foldlM (aggregateStep db nowUtc) db

/-- Example chat with a timezone name absent from the IANA table. -/
def exChatBadTz : Chat := { id := 2, chat_id := 200, timezone := "Mars/Base" }

/-- Example store for claim C3: the first chat has an unknown timezone, the
second chat has an authorized operator with no check-in during an open morning
window. -/
def exDbTwoChats : Db :=
  { users := [⟨7, 700⟩], chats := [exChatBadTz, exChat],
    memberships := [⟨7, 1, RoleEnum.OPERATOR, true⟩],
    checkins := [], settingsRows := [exSettings], daily_stats := [],
    nextStatId := 0, tzTable := [("UTC", 0)] }

/-- Outcome of one attempt of `bot.send_message` as seen by
`NotificationService._send_message` (`app/services/notifications.py`):
success, `TelegramRetryAfter` with its signaled delay, `TelegramForbiddenError`,
or any other exception. -/
inductive SendOutcome where
  | ok
  | retryAfter (delay : Nat)
  | forbidden
  | otherError
deriving DecidableEq, Repr

/-- How `_send_message` finished: delivered, logged-and-skipped (forbidden or
other exception), or the transport trace ran out while it was still retrying. -/
inductive SendResult where
  | delivered
  | skippedForbidden
  | skippedError
  | exhausted
deriving DecidableEq, Repr

/-- `NotificationService._send_message` over a trace of transport outcomes,
one entry per attempt.  On `TelegramRetryAfter` it sleeps for the signaled
delay plus one second and then calls itself recursively — the source has no
retry counter — and on `TelegramForbiddenError` or any other exception it logs
and returns.  No exception ever propagates out.  Returns the final result and
the number of send attempts made. -/
def sendMessage : List SendOutcome → SendResult × Nat
  | [] => (SendResult.exhausted, 0)
  | o :: rest =>
    match o with
    | SendOutcome.ok => (SendResult.delivered, 1)
    | SendOutcome.retryAfter _ =>
      let r := sendMessage rest
      (r.1, r.2 + 1)
    | SendOutcome.forbidden => (SendResult.skippedForbidden, 1)
    | SendOutcome.otherError => (SendResult.skippedError, 1)

/-- Number of consecutive rate-limit outcomes at the head of a transport
trace. -/
def leadingRetries : List SendOutcome → Nat
  | SendOutcome.retryAfter _ :: rest => leadingRetries rest + 1
  | _ => 0

/-- The pending photo draft stored in the FSM state by `handle_photo`
(`app/routers/checkins.py`): the photo file ids and the UTC instant the photo
was received. -/
structure Draft where
  photo_file_id : String
  file_unique_id : String
  received_at : Int
deriving DecidableEq, Repr

/-- The user-visible outcome of `confirm_checkin`: the alert or message texts
of the source, plus a constructor for an exception propagating out of the
handler (missing chat row, unknown timezone, or an integrity error reaching
`commit`). -/
inductive Reply where
  | sendPhotoAlert
  | staleAlert
  | authorizeAlert
  | weekendAlert
  | windowAlert
  | alreadyRecordedAlert
  | savedMessage
  | errorRaised
deriving DecidableEq, Repr

/-- `_is_within_window` (`app/routers/checkins.py`): with no settings row the
hard-coded fallback windows 06:00-11:00 and 16:00-23:00 apply, otherwise the
row's own bounds; the morning pair for a MORNING check-in, the evening pair
otherwise. -/
def isWithinWindow (settings_row : Option ChatSettings) (now : Int)
    (checkin_type : CheckinType) : Bool :=
  match settings_row with
  | none =>
    match checkin_type with
    | CheckinType.MORNING => decide (21600 ≤ now ∧ now ≤ 39600)
    | CheckinType.EVENING => decide (57600 ≤ now ∧ now ≤ 82800)
  | some s =>
    match checkin_type with
    | CheckinType.MORNING => decide (s.morning_start ≤ now ∧ now ≤ s.morning_end)
    | CheckinType.EVENING => decide (s.evening_start ≤ now ∧ now ≤ s.evening_end)

/-- The membership query of `confirm_checkin`: memberships joined with users on
the caller's `telegram_id` and filtered to `authorized IS true` (the source has
no role or chat condition here); the handler then takes the first row. -/
def authorizedMembershipsOf (db : Db) (tgid : Nat) : List Membership :=
  db.memberships.filter (fun m =>
    decide ((∃ u ∈ db.users, u.id = m.user_id ∧ u.telegram_id = tgid) ∧
      m.authorized = true))

/-- Key equality of the unique constraint `uq_checkins_user_chat_type_date`
(`app/models.py`): same `(user_id, chat_id, type, checkin_date)`. -/
def checkinSameKeyPred (c : Checkin) (c0 : Checkin) : Bool :=
  decide (c0.user_id = c.user_id ∧ c0.chat_id = c.chat_id ∧ c0.type = c.type ∧
    c0.checkin_date = c.checkin_date)

/-- The storage layer's insert under the unique constraint: a row whose
4-tuple key is already present makes the insert fail with an integrity error
(it neither overwrites nor duplicates); otherwise the row is appended. -/
def insertCheckin (rows : List Checkin) (c : Checkin) : Except Unit (List Checkin) :=
  if rows.any (checkinSameKeyPred c) then Except.error ()
  else Except.ok (rows ++ [c])

/-- The weekend guard of `confirm_checkin`: only applies when a chat-specific
settings row exists and excludes weekends. -/
def weekendBlocked (cs : Option ChatSettings) (tLocal : Int) : Bool :=
  match cs with
  | some s => decide (s.include_weekends = false ∧ 5 ≤ weekday tLocal)
  | none => false

/-- The timezone name `confirm_checkin` resolves: the chat-specific settings
row's timezone when that row exists, else the chat row's timezone. -/
def effectiveTzName (db : Db) (chat : Chat) : String :=
  match db.settingsRows.find? (fun s => s.chat_id = some chat.id) with
  | some s => s.timezone
  | none => chat.timezone

/-- The check-in row `confirm_checkin` constructs before committing: the
membership's user, the resolved chat, the chosen window kind, the draft's
photo ids, the UTC creation instant and the local calendar date. -/
def newCheckinRow (m : Membership) (chat : Chat) (ct : CheckinType) (d : Draft)
    (nowUtc off : Int) : Checkin :=
  { user_id := m.user_id, chat_id := chat.id, type := ct,
    photo_file_id := d.photo_file_id, file_unique_id := d.file_unique_id,
    created_at := nowUtc, checkin_date := dayOf (nowUtc + off) }

/-- `confirm_checkin` (`app/routers/checkins.py`): returns the reply shown to
the user, the FSM draft state after the handler, and the store after the
handler.  Branches in source order: no pending draft; stale draft (strictly
older than 2 minutes — the state is cleared); no authorized membership;
missing chat row or unknown timezone (an exception would propagate); weekend
excluded by the chat-specific settings row; time outside the acceptance
window; duplicate `(user, chat, type, date)` — the "already recorded" alert
with no write; otherwise insert, commit and clear the draft. -/
def confirmCheckin (db : Db) (draft : Option Draft) (tgid : Nat) (nowUtc : Int)
    (checkin_type : CheckinType) : Reply × Option Draft × Db :=
  match draft with
  | none => (Reply.sendPhotoAlert, none, db)
  | some d =>
    if 120 < nowUtc - d.received_at then (Reply.staleAlert, none, db)
    else
      match authorizedMembershipsOf db tgid with
      | [] => (Reply.authorizeAlert, some d, db)
      | m :: _ =>
        match db.chats.find? (fun c => decide (c.id = m.chat_id)) with
        | none => (Reply.errorRaised, some d, db)
        | some chat =>
          let chat_settings := db.settingsRows.find? (fun s => s.chat_id = some chat.id)
          match lookupTz db.tzTable (effectiveTzName db chat) with
          | Except.error _ => (Reply.errorRaised, some d, db)
          | Except.ok off =>
            let nowLocal := nowUtc + off
            if weekendBlocked chat_settings nowLocal then (Reply.weekendAlert, some d, db)
            else if isWithinWindow chat_settings (timeOfDay nowLocal) checkin_type = false then
              (Reply.windowAlert, some d, db)
            else
              let newRow : Checkin := newCheckinRow m chat checkin_type d nowUtc off
              if db.checkins.any (checkinSameKeyPred newRow) then
                (Reply.alreadyRecordedAlert, some d, db)
              else
                match insertCheckin db.checkins newRow with
                | Except.error _ => (Reply.errorRaised, some d, db)
                | Except.ok rows => (Reply.savedMessage, none, { db with checkins := rows })

/-- Example store for claims C4 and C10: an authorized operator (user 7,
telegram id 700) in `exChat`, no check-ins yet. -/
def exDbConfirm : Db :=
  { users := [⟨7, 700⟩], chats := [exChat],
    memberships := [⟨7, 1, RoleEnum.OPERATOR, true⟩],
    checkins := [], settingsRows := [exSettings], daily_stats := [],
    nextStatId := 0, tzTable := [("UTC", 0)] }

theorem mem_doneIds_iff (db : Db) (chatId : Nat) (window : CheckinType) (d : Int)
    (u : Nat) :
    (u ∈ (db.checkins.filter (checkinKeyPred chatId window d)).map (fun c => c.user_id)) ↔
      ∃ c ∈ db.checkins, c.chat_id = chatId ∧ c.type = window ∧ c.checkin_date = d ∧
        c.user_id = u := by
  simp only [List.mem_map, List.mem_filter, checkinKeyPred, decide_eq_true_eq]
  constructor
  · rintro ⟨c, ⟨hc, h1, h2, h3⟩, h4⟩
    exact ⟨c, hc, h1, h2, h3, h4⟩
  · rintro ⟨c, hc, h1, h2, h3, h4⟩
    exact ⟨c, ⟨hc, h1, h2, h3⟩, h4⟩

theorem mem_notifyMissing_iff (db : Db) (chat : Chat) (window : CheckinType)
    (d : Int) (m : Membership) :
    (∃ missing, notifyMissing db chat window d = some missing ∧ m ∈ missing) ↔
      (m ∈ db.memberships ∧ m.chat_id = chat.id ∧ m.role = RoleEnum.OPERATOR ∧
        m.authorized = true ∧
        ∀ c ∈ db.checkins, c.chat_id = chat.id → c.type = window →
          c.checkin_date = d → c.user_id ≠ m.user_id) := by
  have hmissing : ∀ mm : Membership,
      mm ∈ (db.memberships.filter (authOperatorPred chat.id)).filter
        (fun x => decide (x.user_id ∉ (db.checkins.filter
          (checkinKeyPred chat.id window d)).map (fun c => c.user_id))) ↔
      (mm ∈ db.memberships ∧ mm.chat_id = chat.id ∧ mm.role = RoleEnum.OPERATOR ∧
        mm.authorized = true ∧
        ∀ c ∈ db.checkins, c.chat_id = chat.id → c.type = window →
          c.checkin_date = d → c.user_id ≠ mm.user_id) := by
    intro mm
    simp only [List.mem_filter, authOperatorPred, decide_eq_true_eq,
      mem_doneIds_iff]
    constructor
    · rintro ⟨⟨hmem, h1, h2, h3⟩, hq⟩
      refine ⟨hmem, h1, h2, h3, ?_⟩
      intro c hc hc1 hc2 hc3 hc4
      exact hq ⟨c, hc, hc1, hc2, hc3, hc4⟩
    · rintro ⟨hmem, h1, h2, h3, hq⟩
      refine ⟨⟨hmem, h1, h2, h3⟩, ?_⟩
      rintro ⟨c, hc, hc1, hc2, hc3, hc4⟩
      exact hq c hc hc1 hc2 hc3 hc4
  by_cases h1 : (db.memberships.filter (authOperatorPred chat.id)).isEmpty = true
  · have hnone : notifyMissing db chat window d = none := by
      unfold notifyMissing
      simp only [h1, if_true]
    rw [List.isEmpty_iff] at h1
    constructor
    · rintro ⟨_, h, _⟩
      rw [hnone] at h
      exact absurd h (by simp)
    · intro hr
      have hmm := (hmissing m).mpr hr
      rw [List.mem_filter, h1] at hmm
      exact absurd hmm.1 (List.not_mem_nil m)
  · by_cases h2 : ((db.memberships.filter (authOperatorPred chat.id)).filter
        (fun x => decide (x.user_id ∉ (db.checkins.filter
          (checkinKeyPred chat.id window d)).map (fun c => c.user_id)))).isEmpty = true
    · have hnone : notifyMissing db chat window d = none := by
        unfold notifyMissing
        simp only [Bool.not_eq_true] at h1
        simp only [h1, h2, Bool.false_eq_true, if_false, if_true]
      rw [List.isEmpty_iff] at h2
      constructor
      · rintro ⟨_, h, _⟩
        rw [hnone] at h
        exact absurd h (by simp)
      · intro hr
        have hmm := (hmissing m).mpr hr
        rw [h2] at hmm
        exact absurd hmm (List.not_mem_nil m)
    · have hsome : notifyMissing db chat window d =
          some ((db.memberships.filter (authOperatorPred chat.id)).filter
            (fun x => decide (x.user_id ∉ (db.checkins.filter
              (checkinKeyPred chat.id window d)).map (fun c => c.user_id)))) := by
        unfold notifyMissing
        simp only [Bool.not_eq_true] at h1 h2
        simp only [h1, h2, Bool.false_eq_true, if_false, if_true]
      constructor
      · rintro ⟨missing, hs, hmm⟩
        rw [hsome] at hs
        injection hs with hs
        rw [← hs] at hmm
        exact (hmissing m).mp hmm
      · intro hr
        exact ⟨_, hsome, (hmissing m).mpr hr⟩

theorem mem_windowUsers_iff (db : Db) (chatId : Nat) (targetDate : Int)
    (w : CheckinType) (u : Nat) :
    (u ∈ (windowRows db chatId targetDate w).map (fun r => r.1)) ↔
      ∃ c ∈ db.checkins, c.chat_id = chatId ∧ c.checkin_date = targetDate ∧
        c.type = w ∧ c.user_id = u := by
  unfold windowRows
  constructor
  · intro hu
    rw [List.mem_map] at hu
    obtain ⟨r, hr, hu⟩ := hu
    rw [List.mem_filter] at hr
    obtain ⟨hrows, hw⟩ := hr
    rw [List.mem_map] at hrows
    obtain ⟨c, hcf, hcr⟩ := hrows
    rw [List.mem_filter] at hcf
    obtain ⟨hc, hcp⟩ := hcf
    simp only [dateChatPred, decide_eq_true_eq] at hcp
    simp only [decide_eq_true_eq] at hw
    refine ⟨c, hc, hcp.1, hcp.2, ?_, ?_⟩
    · rw [← hcr] at hw; exact hw
    · rw [← hcr] at hu; exact hu
  · rintro ⟨c, hc, h1, h2, hw, hu⟩
    rw [List.mem_map]
    refine ⟨(c.user_id, c.type), ?_, hu⟩
    rw [List.mem_filter]
    refine ⟨?_, by simp [hw]⟩
    rw [List.mem_map]
    refine ⟨c, ?_, rfl⟩
    rw [List.mem_filter]
    exact ⟨hc, by simp [dateChatPred, h1, h2]⟩

theorem aggregatePayload_misses_morning (db : Db) (chat : Chat)
    (targetDate now : Int) :
    (aggregatePayload db chat targetDate now).misses_morning =
      ((db.memberships.filter (operatorPred chat.id)).filter
        (fun m => decide (m.user_id ∉
          (windowRows db chat.id targetDate CheckinType.MORNING).map (fun r => r.1)))).map
        (fun m => m.user_id) := rfl

theorem aggregatePayload_misses_evening (db : Db) (chat : Chat)
    (targetDate now : Int) :
    (aggregatePayload db chat targetDate now).misses_evening =
      ((db.memberships.filter (operatorPred chat.id)).filter
        (fun m => decide (m.user_id ∉
          (windowRows db chat.id targetDate CheckinType.EVENING).map (fun r => r.1)))).map
        (fun m => m.user_id) := rfl

theorem mem_misses_evening_iff (db : Db) (chat : Chat) (targetDate now : Int)
    (u : Nat) :
    u ∈ (aggregatePayload db chat targetDate now).misses_evening ↔
      (∃ m ∈ db.memberships, m.chat_id = chat.id ∧ m.role = RoleEnum.OPERATOR ∧
        m.user_id = u) ∧
      ∀ c ∈ db.checkins, c.chat_id = chat.id → c.checkin_date = targetDate →
        c.type = CheckinType.EVENING → c.user_id ≠ u := by
  rw [aggregatePayload_misses_evening]
  constructor
  · intro hu
    rw [List.mem_map] at hu
    obtain ⟨m, hm, hu⟩ := hu
    rw [List.mem_filter] at hm
    obtain ⟨hop, hnot⟩ := hm
    rw [List.mem_filter] at hop
    obtain ⟨hmem, hpred⟩ := hop
    simp only [operatorPred, decide_eq_true_eq] at hpred
    simp only [decide_eq_true_eq] at hnot
    refine ⟨⟨m, hmem, hpred.1, hpred.2, hu⟩, ?_⟩
    intro c hc hc1 hc2 hc3 hc4
    apply hnot
    rw [mem_windowUsers_iff]
    exact ⟨c, hc, hc1, hc2, hc3, by rw [hc4, ← hu]⟩
  · rintro ⟨⟨m, hmem, h1, h2, hu⟩, hq⟩
    rw [List.mem_map]
    refine ⟨m, ?_, hu⟩
    rw [List.mem_filter]
    constructor
    · rw [List.mem_filter]
      exact ⟨hmem, by simp [operatorPred, h1, h2]⟩
    · simp only [decide_eq_true_eq]
      intro hcontra
      rw [mem_windowUsers_iff] at hcontra
      obtain ⟨c, hc, hc1, hc2, hc3, hc4⟩ := hcontra
      exact hq c hc hc1 hc2 hc3 (hc4.trans hu)

theorem mem_misses_morning_iff (db : Db) (chat : Chat) (targetDate now : Int)
    (u : Nat) :
    u ∈ (aggregatePayload db chat targetDate now).misses_morning ↔
      (∃ m ∈ db.memberships, m.chat_id = chat.id ∧ m.role = RoleEnum.OPERATOR ∧
        m.user_id = u) ∧
      ∀ c ∈ db.checkins, c.chat_id = chat.id → c.checkin_date = targetDate →
        c.type = CheckinType.MORNING → c.user_id ≠ u := by
  rw [aggregatePayload_misses_morning]
  constructor
  · intro hu
    rw [List.mem_map] at hu
    obtain ⟨m, hm, hu⟩ := hu
    rw [List.mem_filter] at hm
    obtain ⟨hop, hnot⟩ := hm
    rw [List.mem_filter] at hop
    obtain ⟨hmem, hpred⟩ := hop
    simp only [operatorPred, decide_eq_true_eq] at hpred
    simp only [decide_eq_true_eq] at hnot
    refine ⟨⟨m, hmem, hpred.1, hpred.2, hu⟩, ?_⟩
    intro c hc hc1 hc2 hc3 hc4
    apply hnot
    rw [mem_windowUsers_iff]
    exact ⟨c, hc, hc1, hc2, hc3, by rw [hc4, ← hu]⟩
  · rintro ⟨⟨m, hmem, h1, h2, hu⟩, hq⟩
    rw [List.mem_map]
    refine ⟨m, ?_, hu⟩
    rw [List.mem_filter]
    constructor
    · rw [List.mem_filter]
      exact ⟨hmem, by simp [operatorPred, h1, h2]⟩
    · simp only [decide_eq_true_eq]
      intro hcontra
      rw [mem_windowUsers_iff] at hcontra
      obtain ⟨c, hc, hc1, hc2, hc3, hc4⟩ := hcontra
      exact hq c hc hc1 hc2 hc3 (hc4.trans hu)

theorem upsertStat_memberships (db : Db) (payload : DailyStatData) :
    (upsertStat db payload).memberships = db.memberships := by
  unfold upsertStat
  split_ifs <;> rfl

theorem upsertStat_checkins (db : Db) (payload : DailyStatData) :
    (upsertStat db payload).checkins = db.checkins := by
  unfold upsertStat
  split_ifs <;> rfl

theorem upsertStat_settingsRows (db : Db) (payload : DailyStatData) :
    (upsertStat db payload).settingsRows = db.settingsRows := by
  unfold upsertStat
  split_ifs <;> rfl

theorem aggregateForChat_memberships (db : Db) (chat : Chat) (d now : Int) :
    (aggregateForChat db chat d now).memberships = db.memberships := by
  unfold aggregateForChat
  cases hs : getEffectiveSettings db chat.id <;> simp [hs, upsertStat_memberships]

theorem aggregateForChat_checkins (db : Db) (chat : Chat) (d now : Int) :
    (aggregateForChat db chat d now).checkins = db.checkins := by
  unfold aggregateForChat
  cases hs : getEffectiveSettings db chat.id <;> simp [hs, upsertStat_checkins]

theorem aggregateForChat_settingsRows (db : Db) (chat : Chat) (d now : Int) :
    (aggregateForChat db chat d now).settingsRows = db.settingsRows := by
  unfold aggregateForChat
  cases hs : getEffectiveSettings db chat.id <;> simp [hs, upsertStat_settingsRows]

theorem getEffectiveSettings_congr (db db' : Db) (chatId : Nat)
    (hs : db'.settingsRows = db.settingsRows) :
    getEffectiveSettings db' chatId = getEffectiveSettings db chatId := by
  unfold getEffectiveSettings
  rw [hs]

theorem aggregatePayload_congr (db db' : Db) (chat : Chat) (d now : Int)
    (hm : db'.memberships = db.memberships) (hc : db'.checkins = db.checkins) :
    aggregatePayload db' chat d now = aggregatePayload db chat d now := by
  unfold aggregatePayload windowRows
  rw [hm, hc]

theorem aggregatePayload_created_at (db : Db) (chat : Chat) (d t1 t2 : Int) :
    aggregatePayload db chat d t2 =
      { aggregatePayload db chat d t1 with created_at := t2 } := rfl

theorem filter_map_overwrite (l : List DailyStat) (payload : DailyStatData) :
    (l.map (fun st =>
        if st.data.chat_id = payload.chat_id ∧ st.data.date = payload.date then
          { st with data := payload }
        else st)).filter
      (fun st => decide (st.data.chat_id = payload.chat_id ∧ st.data.date = payload.date)) =
    (l.filter
      (fun st => decide (st.data.chat_id = payload.chat_id ∧ st.data.date = payload.date))).map
      (fun st => { st with data := payload }) := by
  induction l with
  | nil => rfl
  | cons a l ih =>
    by_cases ha : a.data.chat_id = payload.chat_id ∧ a.data.date = payload.date
    · simp [List.filter_cons, ha]
      simpa using ih
    · simp [List.filter_cons, ha]
      simpa using ih

theorem upsertStat_key (db : Db) (payload : DailyStatData) (cid : Nat) (d : Int)
    (hcid : payload.chat_id = cid) (hd : payload.date = d)
    (hcount : (statsForKey db cid d).length ≤ 1) :
    ∃ i, statsForKey (upsertStat db payload) cid d = [{ id := i, data := payload }] ∧
      (statsForKey db cid d = [] → i = db.nextStatId) ∧
      (∀ st, statsForKey db cid d = [st] → i = st.id) := by
  subst hcid
  subst hd
  by_cases hany : db.daily_stats.any
      (fun st => decide (st.data.chat_id = payload.chat_id ∧ st.data.date = payload.date)) = true
  · obtain ⟨x, hx, hpx⟩ := List.any_eq_true.mp hany
    have hne : statsForKey db payload.chat_id payload.date ≠ [] := by
      intro hnil
      unfold statsForKey at hnil
      exact (List.filter_eq_nil_iff.mp hnil) x hx hpx
    obtain ⟨st, hfl⟩ : ∃ st, statsForKey db payload.chat_id payload.date = [st] := by
      cases hc : statsForKey db payload.chat_id payload.date with
      | nil => exact absurd hc hne
      | cons a t =>
        refine ⟨a, ?_⟩
        rw [hc] at hcount
        simp only [List.length_cons] at hcount
        have : t = [] := List.length_eq_zero.mp (by omega)
        rw [this]
    refine ⟨st.id, ?_, ?_, ?_⟩
    · unfold upsertStat
      rw [if_pos hany]
      show (db.daily_stats.map _).filter _ = _
      rw [filter_map_overwrite]
      unfold statsForKey at hfl
      rw [hfl]
      rfl
    · intro hnil
      exact absurd hnil hne
    · intro st' hst'
      rw [hfl] at hst'
      injection hst' with h1 _
      rw [h1]
  · have hnil : statsForKey db payload.chat_id payload.date = [] := by
      unfold statsForKey
      rw [List.filter_eq_nil_iff]
      intro a ha hpa
      rw [Bool.not_eq_true] at hany
      have := List.any_eq_false.mp hany a ha
      exact this hpa
    refine ⟨db.nextStatId, ?_, fun _ => rfl, ?_⟩
    · unfold upsertStat
      rw [if_neg hany]
      show (db.daily_stats ++ _).filter _ = _
      rw [List.filter_append]
      unfold statsForKey at hnil
      rw [hnil]
      simp
    · intro st hst
      rw [hnil] at hst
      cases hst

theorem aggregateForChat_eq_of_some (db : Db) (chat : Chat) (d now : Int)
    (s : ChatSettings) (hs : getEffectiveSettings db chat.id = some s) :
    aggregateForChat db chat d now = upsertStat db (aggregatePayload db chat d now) := by
  unfold aggregateForChat
  rw [hs]

/-- Claim C1 (amended): the reminder engine's missing list consists exactly of
the chat's memberships with role OPERATOR and `authorized = true` that have no
check-in for the window and date; the aggregator's roster, by contrast, is
every membership with role OPERATOR regardless of `authorized`:
`total_operators` counts them all and the morning miss list contains exactly
the OPERATOR members (authorized or not) without a morning check-in. -/
theorem claim_C1_rosters (db : Db) (chat : Chat) (window : CheckinType)
    (d now : Int) (m : Membership) (u : Nat) :
    ((∃ missing, notifyMissing db chat window d = some missing ∧ m ∈ missing) ↔
      (m ∈ db.memberships ∧ m.chat_id = chat.id ∧ m.role = RoleEnum.OPERATOR ∧
        m.authorized = true ∧
        ∀ c ∈ db.checkins, c.chat_id = chat.id → c.type = window →
          c.checkin_date = d → c.user_id ≠ m.user_id))
    ∧ ((aggregatePayload db chat d now).total_operators =
        db.memberships.countP (operatorPred chat.id))
    ∧ (u ∈ (aggregatePayload db chat d now).misses_morning ↔
      ((∃ mm ∈ db.memberships, mm.chat_id = chat.id ∧ mm.role = RoleEnum.OPERATOR ∧
        mm.user_id = u) ∧
        ∀ c ∈ db.checkins, c.chat_id = chat.id → c.checkin_date = d →
          c.type = CheckinType.MORNING → c.user_id ≠ u))
    ∧ (u ∈ (aggregatePayload db chat d now).misses_evening ↔
      ((∃ mm ∈ db.memberships, mm.chat_id = chat.id ∧ mm.role = RoleEnum.OPERATOR ∧
        mm.user_id = u) ∧
        ∀ c ∈ db.checkins, c.chat_id = chat.id → c.checkin_date = d →
          c.type = CheckinType.EVENING → c.user_id ≠ u)) :=
  ⟨mem_notifyMissing_iff db chat window d m,
   (List.countP_eq_length_filter _ _).symm,
   mem_misses_morning_iff db chat d now u,
   mem_misses_evening_iff db chat d now u⟩

/-- Claim C1 counterexample: in `exDbUnauth` the only membership is an OPERATOR
with `authorized = false`, yet the persisted rollup counts it in
`total_operators` and lists user 7 in the morning miss list — refuting the
claim that an unauthorized membership is never counted and never appears. -/
theorem claim_C1_counterexample :
    (∀ m ∈ exDbUnauth.memberships, m.authorized = false)
    ∧ (aggregatePayload exDbUnauth exChat 0 0).total_operators = 1
    ∧ 7 ∈ (aggregatePayload exDbUnauth exChat 0 0).misses_morning
    ∧ (statsForKey (aggregateForChat exDbUnauth exChat 0 0) 1 0).map
        (fun st => st.data.total_operators) = [1] := by
  decide

/-- Claim C2 (amended): for a chat with resolvable settings and at most one
stored rollup row for the key, running `_aggregate_for_chat` twice with no
intervening check-in or membership changes keeps exactly one rollup row for
`(chat, date)`; the second run overwrites that row in place (same surrogate
id) and every payload field of the two runs is equal except `created_at`,
which the upsert rewrites to the wall-clock time of the run. -/
theorem claim_C2_upsert (db : Db) (chat : Chat) (d t1 t2 : Int)
    (hset : getEffectiveSettings db chat.id ≠ none)
    (hcount : (statsForKey db chat.id d).length ≤ 1) :
    ∃ st1, statsForKey (aggregateForChat db chat d t1) chat.id d = [st1] ∧
      statsForKey (aggregateForChat (aggregateForChat db chat d t1) chat d t2)
          chat.id d =
        [{ id := st1.id, data := { st1.data with created_at := t2 } }] := by
  obtain ⟨s, hs⟩ : ∃ s, getEffectiveSettings db chat.id = some s := by
    cases h : getEffectiveSettings db chat.id with
    | none => exact absurd h hset
    | some s => exact ⟨s, rfl⟩
  have h1 : aggregateForChat db chat d t1 =
      upsertStat db (aggregatePayload db chat d t1) :=
    aggregateForChat_eq_of_some db chat d t1 s hs
  obtain ⟨i1, hkey1, -, -⟩ :=
    upsertStat_key db (aggregatePayload db chat d t1) chat.id d rfl rfl hcount
  have hkey1' : statsForKey (aggregateForChat db chat d t1) chat.id d =
      [{ id := i1, data := aggregatePayload db chat d t1 }] := by
    rw [h1]
    exact hkey1
  have hcount2 : (statsForKey (aggregateForChat db chat d t1) chat.id d).length ≤ 1 := by
    rw [hkey1']
    simp
  have hset1 : getEffectiveSettings (aggregateForChat db chat d t1) chat.id = some s := by
    rw [getEffectiveSettings_congr db (aggregateForChat db chat d t1) chat.id
      (aggregateForChat_settingsRows db chat d t1)]
    exact hs
  have h2 : aggregateForChat (aggregateForChat db chat d t1) chat d t2 =
      upsertStat (aggregateForChat db chat d t1)
        (aggregatePayload (aggregateForChat db chat d t1) chat d t2) :=
    aggregateForChat_eq_of_some (aggregateForChat db chat d t1) chat d t2 s hset1
  have hpay : aggregatePayload (aggregateForChat db chat d t1) chat d t2 =
      { aggregatePayload db chat d t1 with created_at := t2 } := by
    rw [aggregatePayload_congr db (aggregateForChat db chat d t1) chat d t2
      (aggregateForChat_memberships db chat d t1)
      (aggregateForChat_checkins db chat d t1)]
    exact aggregatePayload_created_at db chat d t1 t2
  obtain ⟨i2, hkey2, -, hone2⟩ :=
    upsertStat_key (aggregateForChat db chat d t1)
      (aggregatePayload (aggregateForChat db chat d t1) chat d t2) chat.id d rfl rfl hcount2
  have hi2 : i2 = i1 :=
    hone2 { id := i1, data := aggregatePayload db chat d t1 } hkey1'
  refine ⟨{ id := i1, data := aggregatePayload db chat d t1 }, hkey1', ?_⟩
  rw [h2, hkey2, hi2, hpay]

/-- Witness for claim C2 at the concrete store `exDbAuth`: both hypotheses are
discharged by evaluation. -/
theorem claim_C2_witness :
    ∃ st1, statsForKey (aggregateForChat exDbAuth exChat 0 0) exChat.id 0 = [st1] ∧
      statsForKey (aggregateForChat (aggregateForChat exDbAuth exChat 0 0) exChat 0 60)
          exChat.id 0 =
        [{ id := st1.id, data := { st1.data with created_at := 60 } }] :=
  claim_C2_upsert exDbAuth exChat 0 0 60 (by decide) (by decide)

/-- Claim C2 counterexample: at `exDbAuth` the rollup row persisted by the
second aggregation run (at time 60) differs from the row persisted by the
first run (at time 0) — `created_at` is rewritten — so the two runs are not
byte-identical in every persisted field as the claim states. -/
theorem claim_C2_counterexample :
    statsForKey (aggregateForChat (aggregateForChat exDbAuth exChat 0 0) exChat 0 60) 1 0 ≠
      statsForKey (aggregateForChat exDbAuth exChat 0 0) 1 0 := by
  decide

/-- Claim C5: the window evaluator returns MORNING exactly on morning-interval
containment, otherwise EVENING exactly on evening containment, otherwise NONE;
in particular it yields exactly one of the three values and MORNING wins when
the configured windows overlap at the given time. -/
theorem claim_C5_window_classification (s : ChatSettings) (t : Int) :
    (determineWindow s t = some CheckinType.MORNING ↔
      (s.morning_start ≤ t ∧ t ≤ s.morning_end))
    ∧ (determineWindow s t = some CheckinType.EVENING ↔
      (¬(s.morning_start ≤ t ∧ t ≤ s.morning_end) ∧
        (s.evening_start ≤ t ∧ t ≤ s.evening_end)))
    ∧ (determineWindow s t = none ↔
      (¬(s.morning_start ≤ t ∧ t ≤ s.morning_end) ∧
        ¬(s.evening_start ≤ t ∧ t ≤ s.evening_end))) := by
  unfold determineWindow
  by_cases hm : s.morning_start ≤ t ∧ t ≤ s.morning_end
  · simp [hm]
  · by_cases he : s.evening_start ≤ t ∧ t ≤ s.evening_end
    · simp [hm, he]
    · simp [hm, he]

theorem except_bind_ok {ε α β : Type} (a : α) (f : α → Except ε β) :
    (Except.ok a >>= f) = f a := rfl

theorem except_bind_error {ε α β : Type} (e : ε) (f : α → Except ε β) :
    ((Except.error e : Except ε α) >>= f) = Except.error e := rfl

theorem remindStep_isOk (db : Db) (nowUtc : Int) (acc : List Reminder) (chat : Chat) :
    (∃ r, remindStep db nowUtc acc chat = Except.ok r) ↔
      ∃ off, lookupTz db.tzTable chat.timezone = Except.ok off := by
  unfold remindStep
  cases h : lookupTz db.tzTable chat.timezone with
  | error e =>
    simp only [h, except_bind_error]
    constructor
    · rintro ⟨r, hr⟩
      cases hr
    · rintro ⟨off, hoff⟩
      cases hoff
  | ok off =>
    simp only [h, except_bind_ok]
    constructor
    · intro _
      exact ⟨off, rfl⟩
    · intro _
      cases hs : getEffectiveSettings db chat.id with
      | none => exact ⟨acc, rfl⟩
      | some s =>
        by_cases hw : s.include_weekends = false ∧ 5 ≤ weekday (nowUtc + off)
        · exact ⟨acc, by dsimp only; rw [if_pos hw]; exact rfl⟩
        · cases hd : determineWindow s (timeOfDay (nowUtc + off)) with
          | none => exact ⟨acc, by dsimp only; rw [if_neg hw, hd]; exact rfl⟩
          | some w =>
            cases hn : notifyMissing db chat w (dayOf (nowUtc + off)) with
            | none =>
              exact ⟨acc, by dsimp only; rw [if_neg hw, hd]; dsimp only; rw [hn]; exact rfl⟩
            | some missing =>
              exact ⟨acc ++ [⟨chat.chat_id, w, missing⟩],
                by dsimp only; rw [if_neg hw, hd]; dsimp only; rw [hn]; exact rfl⟩

theorem aggregateStep_isOk (db : Db) (nowUtc : Int) (acc : Db) (chat : Chat) :
    (∃ r, aggregateStep db nowUtc acc chat = Except.ok r) ↔
      ∃ off, lookupTz db.tzTable chat.timezone = Except.ok off := by
  unfold aggregateStep
  cases h : lookupTz db.tzTable chat.timezone with
  | error e =>
    simp only [h, except_bind_error]
    constructor
    · rintro ⟨r, hr⟩
      cases hr
    · rintro ⟨off, hoff⟩
      cases hoff
  | ok off =>
    simp only [h, except_bind_ok]
    constructor
    · intro _
      exact ⟨off, rfl⟩
    · intro _
      exact ⟨_, rfl⟩

theorem foldlM_except_isOk_iff {α β ε : Type} (f : β → α → Except ε β) (P : α → Prop)
    (hf : ∀ b a, (∃ r, f b a = Except.ok r) ↔ P a) :
    ∀ (l : List α) (b : β), (∃ r, l.foldlM f b = Except.ok r) ↔ ∀ a ∈ l, P a := by
  intro l
  induction l with
  | nil =>
    intro b
    constructor
    · intro _ a ha
      exact absurd ha (List.not_mem_nil a)
    · intro _
      exact ⟨b, rfl⟩
  | cons a l ih =>
    intro b
    rw [List.foldlM_cons]
    cases hfa : f b a with
    | error e =>
      rw [except_bind_error]
      constructor
      · rintro ⟨r, hr⟩
        cases hr
      · intro hall
        obtain ⟨r, hr⟩ := (hf b a).mpr (hall a (List.mem_cons_self a l))
        rw [hfa] at hr
        cases hr
    | ok b' =>
      rw [except_bind_ok]
      constructor
      · intro hok x hx
        rcases List.mem_cons.mp hx with hhead | htail
        · subst hhead
          exact (hf b x).mp ⟨b', hfa⟩
        · exact (ih b').mp hok x htail
      · intro hall
        exact (ih b').mpr (fun x hx => hall x (List.mem_cons_of_mem a hx))

/-- Claim C3 (amended): in both shift-bot ticks the per-chat loop has no
exception handler, so a chat whose processing raises — here the timezone
lookup, the only failing operation in the embedding — aborts the whole tick:
a tick completes if and only if every chat's timezone resolves.  Dispatch
failures, by contrast, cannot abort a tick because the notification service
catches every exception internally (the send path is total in the embedding).
The claimed per-chat containment of storage/timezone errors does not hold. -/
theorem claim_C3_tick_abort (db : Db) (nowUtc : Int) :
    ((∃ rs, remindTick db nowUtc = Except.ok rs) ↔
      ∀ chat ∈ db.chats, ∃ off, lookupTz db.tzTable chat.timezone = Except.ok off)
    ∧ ((∃ db', aggregateTick db nowUtc = Except.ok db') ↔
      ∀ chat ∈ db.chats, ∃ off, lookupTz db.tzTable chat.timezone = Except.ok off) :=
  ⟨foldlM_except_isOk_iff (remindStep db nowUtc)
      (fun chat => ∃ off, lookupTz db.tzTable chat.timezone = Except.ok off)
      (remindStep_isOk db nowUtc) db.chats [],
   foldlM_except_isOk_iff (aggregateStep db nowUtc)
      (fun chat => ∃ off, lookupTz db.tzTable chat.timezone = Except.ok off)
      (aggregateStep_isOk db nowUtc) db.chats db⟩

/-- Claim C3 counterexample: in `exDbTwoChats` the first chat's timezone
lookup fails, the reminder tick aborts with that error, and the second chat —
which processed alone produces a reminder for its missing operator — is never
processed: the error in one chat's step does prevent the remaining chats from
being processed. -/
theorem claim_C3_counterexample :
    remindTick exDbTwoChats 25200 = Except.error "UnknownTimeZoneError"
    ∧ remindTick { exDbTwoChats with chats := [exChat] } 25200 =
        Except.ok [{ chat_id := 100, window := CheckinType.MORNING,
                     missing := [⟨7, 1, RoleEnum.OPERATOR, true⟩] }] := by
  constructor
  · rfl
  · rfl

/-- Claim C6 (amended): on every rate-limited signal `_send_message` sleeps
and then retries by calling itself recursively, with no retry counter: the
number of attempts is one more than the number of consecutive rate-limit
signals (bounded only by the trace), so repeated rate limits cause repeated
retries rather than a single one; any non-rate-limit outcome ends the call —
delivered, or logged and skipped — and nothing propagates to the caller. -/
theorem claim_C6_unbounded_retry (trace : List SendOutcome) :
    (sendMessage trace).2 = min (leadingRetries trace + 1) trace.length := by
  induction trace with
  | nil => rfl
  | cons o rest ih =>
    cases o with
    | ok =>
      simp only [sendMessage, leadingRetries, List.length_cons]
      omega
    | retryAfter delay =>
      simp only [sendMessage, leadingRetries, List.length_cons]
      omega
    | forbidden =>
      simp only [sendMessage, leadingRetries, List.length_cons]
      omega
    | otherError =>
      simp only [sendMessage, leadingRetries, List.length_cons]
      omega

/-- Claim C6 counterexample: a trace of two rate-limit signals followed by a
success makes `_send_message` attempt three sends and deliver; under the
claimed policy — exactly one retry after the first rate-limit signal, then log
and skip — at most two attempts could ever occur. -/
theorem claim_C6_counterexample :
    sendMessage [SendOutcome.retryAfter 1, SendOutcome.retryAfter 1, SendOutcome.ok] =
      (SendResult.delivered, 3)
    ∧ ¬((sendMessage [SendOutcome.retryAfter 1, SendOutcome.retryAfter 1,
        SendOutcome.ok]).2 ≤ 2) := by
  decide

/-- Claim C10: a confirmation callback with no pending photo draft is rejected
with the "send a current photo" alert and the store is unchanged; a
confirmation arriving strictly more than 2 minutes (120 seconds) after the
photo was received is rejected with the stale alert, the pending draft is
cleared, and no check-in row is created — the store is unchanged on both
rejection paths. -/
theorem claim_C10_stale_rejection (db : Db) (tgid : Nat) (nowUtc : Int)
    (ct : CheckinType) (d : Draft) :
    (confirmCheckin db none tgid nowUtc ct = (Reply.sendPhotoAlert, none, db))
    ∧ (120 < nowUtc - d.received_at →
        confirmCheckin db (some d) tgid nowUtc ct = (Reply.staleAlert, none, db)) := by
  constructor
  · rfl
  · intro h
    unfold confirmCheckin
    dsimp only
    rw [if_pos h]

/-- Witness for claim C10 at the concrete store `exDbConfirm`: a callback with
no draft, and a callback 200 seconds after the photo. -/
theorem claim_C10_witness :
    (confirmCheckin exDbConfirm none 700 25200 CheckinType.MORNING =
      (Reply.sendPhotoAlert, none, exDbConfirm))
    ∧ (confirmCheckin exDbConfirm (some ⟨"p", "u", 25000⟩) 700 25200 CheckinType.MORNING =
      (Reply.staleAlert, none, exDbConfirm)) :=
  ⟨(claim_C10_stale_rejection exDbConfirm 700 25200 CheckinType.MORNING ⟨"p", "u", 25000⟩).1,
   (claim_C10_stale_rejection exDbConfirm 700 25200 CheckinType.MORNING ⟨"p", "u", 25000⟩).2
     (by decide)⟩

theorem authorizedMembershipsOf_congr (db db' : Db) (tgid : Nat)
    (hm : db'.memberships = db.memberships) (hu : db'.users = db.users) :
    authorizedMembershipsOf db' tgid = authorizedMembershipsOf db tgid := by
  unfold authorizedMembershipsOf
  rw [hm, hu]

/-- Claim C4: at the storage layer, inserting a check-in whose
`(user, chat, type, date)` key is free succeeds and leaves exactly one row
with that key, and a second insert with the same key fails with the conflict
signal instead of overwriting or duplicating; at the handler layer, a
confirmation that saves a check-in makes an immediately repeated confirmation
of the same user, window and date answer with the explicit "already recorded"
alert and leave the store unchanged. -/
theorem claim_C4_checkin_uniqueness
    (rows rows1 : List Checkin) (c c' : Checkin)
    (db : Db) (d d2 : Draft) (tgid : Nat) (nowUtc : Int) (ct : CheckinType)
    (m : Membership) (ms : List Membership) (chat : Chat) (off : Int) :
    (checkinSameKeyPred c c' = true →
      insertCheckin rows c = Except.ok rows1 →
      (rows1.filter (checkinSameKeyPred c)).length = 1 ∧
      insertCheckin rows1 c' = Except.error ())
    ∧ (¬(120 < nowUtc - d.received_at) →
       ¬(120 < nowUtc - d2.received_at) →
       authorizedMembershipsOf db tgid = m :: ms →
       db.chats.find? (fun c0 => decide (c0.id = m.chat_id)) = some chat →
       lookupTz db.tzTable (effectiveTzName db chat) = Except.ok off →
       weekendBlocked (db.settingsRows.find? (fun s => s.chat_id = some chat.id))
         (nowUtc + off) = false →
       isWithinWindow (db.settingsRows.find? (fun s => s.chat_id = some chat.id))
         (timeOfDay (nowUtc + off)) ct = true →
       db.checkins.any (checkinSameKeyPred (newCheckinRow m chat ct d nowUtc off)) = false →
       confirmCheckin db (some d) tgid nowUtc ct =
         (Reply.savedMessage, none,
          { db with checkins := db.checkins ++ [newCheckinRow m chat ct d nowUtc off] }) ∧
       confirmCheckin
         { db with checkins := db.checkins ++ [newCheckinRow m chat ct d nowUtc off] }
         (some d2) tgid nowUtc ct =
         (Reply.alreadyRecordedAlert, some d2,
          { db with checkins := db.checkins ++ [newCheckinRow m chat ct d nowUtc off] })) := by
  constructor
  · intro hkey hins
    unfold insertCheckin at hins
    by_cases hany : rows.any (checkinSameKeyPred c) = true
    · rw [if_pos hany] at hins
      cases hins
    · rw [if_neg hany] at hins
      injection hins with hins
      rw [Bool.not_eq_true] at hany
      have hnil : rows.filter (checkinSameKeyPred c) = [] := by
        rw [List.filter_eq_nil_iff]
        intro a ha hpa
        exact absurd hpa (by
          have := List.any_eq_false.mp hany a ha
          simpa using this)
      constructor
      · rw [← hins, List.filter_append, hnil]
        simp [checkinSameKeyPred]
      · unfold insertCheckin
        rw [if_pos]
        rw [← hins, List.any_append]
        apply Bool.or_eq_true_iff.mpr
        right
        simp only [List.any_cons, List.any_nil, Bool.or_false]
        unfold checkinSameKeyPred at hkey ⊢
        simp only [decide_eq_true_eq] at hkey ⊢
        obtain ⟨h1, h2, h3, h4⟩ := hkey
        exact ⟨h1.symm, h2.symm, h3.symm, h4.symm⟩
  · intro hd1 hd2 hm hchat htz hwk hwin hdup
    have hfirst : confirmCheckin db (some d) tgid nowUtc ct =
        (Reply.savedMessage, none,
         { db with checkins := db.checkins ++ [newCheckinRow m chat ct d nowUtc off] }) := by
      unfold confirmCheckin
      dsimp only
      rw [if_neg hd1, hm]
      dsimp only
      rw [hchat]
      dsimp only
      rw [htz]
      dsimp only
      rw [hwk]
      simp only [Bool.false_eq_true, if_false]
      rw [hwin]
      simp only [Bool.true_eq_false, if_false]
      rw [hdup]
      simp only [Bool.false_eq_true, if_false]
      unfold insertCheckin
      rw [hdup]
      simp only [Bool.false_eq_true, if_false]
    refine ⟨hfirst, ?_⟩
    have hm2 : authorizedMembershipsOf
        { db with checkins := db.checkins ++ [newCheckinRow m chat ct d nowUtc off] } tgid =
        m :: ms :=
      (authorizedMembershipsOf_congr db
        { db with checkins := db.checkins ++ [newCheckinRow m chat ct d nowUtc off] }
        tgid rfl rfl).trans hm
    have htz2 : lookupTz db.tzTable (effectiveTzName
        { db with checkins := db.checkins ++ [newCheckinRow m chat ct d nowUtc off] } chat) =
        Except.ok off := htz
    have hdup2 : (db.checkins ++ [newCheckinRow m chat ct d nowUtc off]).any
        (checkinSameKeyPred (newCheckinRow m chat ct d2 nowUtc off)) = true := by
      rw [List.any_append]
      apply Bool.or_eq_true_iff.mpr
      right
      simp [checkinSameKeyPred, newCheckinRow]
    unfold confirmCheckin
    dsimp only
    rw [if_neg hd2, hm2]
    dsimp only
    rw [hchat]
    dsimp only
    rw [htz2]
    dsimp only
    rw [hwk]
    simp only [Bool.false_eq_true, if_false]
    rw [hwin]
    simp only [Bool.true_eq_false, if_false]
    rw [hdup2]
    simp only [if_true]

/-- Witness for claim C4 at the concrete store `exDbConfirm`: a fresh draft at
07:00 UTC on a weekday saves the check-in; the immediately repeated
confirmation with a second draft gets the "already recorded" alert, and the
direct storage-level double insert conflicts. -/
theorem claim_C4_witness :
    (([⟨7, 1, CheckinType.MORNING, "p", "u", 25200, 0⟩] : List Checkin).filter
        (checkinSameKeyPred ⟨7, 1, CheckinType.MORNING, "p", "u", 25200, 0⟩)).length = 1
    ∧ insertCheckin [⟨7, 1, CheckinType.MORNING, "p", "u", 25200, 0⟩]
        ⟨7, 1, CheckinType.MORNING, "p2", "u2", 25260, 0⟩ = Except.error ()
    ∧ confirmCheckin exDbConfirm (some ⟨"p", "u", 25150⟩) 700 25200 CheckinType.MORNING =
        (Reply.savedMessage, none,
         { exDbConfirm with checkins := exDbConfirm.checkins ++
           [newCheckinRow ⟨7, 1, RoleEnum.OPERATOR, true⟩ exChat CheckinType.MORNING
             ⟨"p", "u", 25150⟩ 25200 0] })
    ∧ confirmCheckin
        { exDbConfirm with checkins := exDbConfirm.checkins ++
          [newCheckinRow ⟨7, 1, RoleEnum.OPERATOR, true⟩ exChat CheckinType.MORNING
            ⟨"p", "u", 25150⟩ 25200 0] }
        (some ⟨"p2", "u2", 25160⟩) 700 25200 CheckinType.MORNING =
        (Reply.alreadyRecordedAlert, some ⟨"p2", "u2", 25160⟩,
         { exDbConfirm with checkins := exDbConfirm.checkins ++
           [newCheckinRow ⟨7, 1, RoleEnum.OPERATOR, true⟩ exChat CheckinType.MORNING
             ⟨"p", "u", 25150⟩ 25200 0] }) := by
  have hstore := (claim_C4_checkin_uniqueness []
      [⟨7, 1, CheckinType.MORNING, "p", "u", 25200, 0⟩]
      ⟨7, 1, CheckinType.MORNING, "p", "u", 25200, 0⟩
      ⟨7, 1, CheckinType.MORNING, "p2", "u2", 25260, 0⟩
      exDbConfirm ⟨"p", "u", 25150⟩ ⟨"p2", "u2", 25160⟩ 700 25200 CheckinType.MORNING
      ⟨7, 1, RoleEnum.OPERATOR, true⟩ [] exChat 0).1 (by decide) (by rfl)
  have h := (claim_C4_checkin_uniqueness []
      [⟨7, 1, CheckinType.MORNING, "p", "u", 25200, 0⟩]
      ⟨7, 1, CheckinType.MORNING, "p", "u", 25200, 0⟩
      ⟨7, 1, CheckinType.MORNING, "p2", "u2", 25260, 0⟩
      exDbConfirm ⟨"p", "u", 25150⟩ ⟨"p2", "u2", 25160⟩ 700 25200 CheckinType.MORNING
      ⟨7, 1, RoleEnum.OPERATOR, true⟩ [] exChat 0).2
      (by decide) (by decide) (by decide) (by decide) (by rfl) (by decide)
      (by decide) (by decide)
  exact ⟨hstore.1, hstore.2, h.1, h.2⟩

/-- Claim C8: settings resolution for the reminder engine is two-level — the
chat-specific row, else the global default row (null chat reference) — and
when neither exists the reminder tick skips the chat entirely, producing no
reminder; the hard-coded fallback windows 06:00-11:00 / 16:00-23:00 live only
in the check-in acceptance path `_is_within_window`, which applies them
exactly when no settings row exists and otherwise uses the row's own bounds. -/
theorem claim_C8_settings_resolution (db : Db) (cid : Nat) (nowUtc : Int)
    (acc : List Reminder) (chat : Chat) (t : Int) (s : ChatSettings) :
    (getEffectiveSettings db cid =
      Option.or (db.settingsRows.find? (fun s0 => s0.chat_id = some cid))
        (db.settingsRows.find? (fun s0 => s0.chat_id = none)))
    ∧ ((∃ off, lookupTz db.tzTable chat.timezone = Except.ok off) →
        getEffectiveSettings db chat.id = none →
        remindStep db nowUtc acc chat = Except.ok acc)
    ∧ isWithinWindow none t CheckinType.MORNING = decide (21600 ≤ t ∧ t ≤ 39600)
    ∧ isWithinWindow none t CheckinType.EVENING = decide (57600 ≤ t ∧ t ≤ 82800)
    ∧ isWithinWindow (some s) t CheckinType.MORNING =
        decide (s.morning_start ≤ t ∧ t ≤ s.morning_end)
    ∧ isWithinWindow (some s) t CheckinType.EVENING =
        decide (s.evening_start ≤ t ∧ t ≤ s.evening_end) := by
  refine ⟨?_, ?_, rfl, rfl, rfl, rfl⟩
  · unfold getEffectiveSettings
    cases db.settingsRows.find? (fun s0 => s0.chat_id = some cid) <;> rfl
  · rintro ⟨off, hoff⟩ hnone
    unfold remindStep
    simp only [hoff, except_bind_ok]
    rw [hnone]
    exact rfl

/-- Witness for claim C8: with no settings rows at all, the reminder step
skips the chat and dispatches nothing. -/
theorem claim_C8_witness :
    remindStep { exDbConfirm with settingsRows := [] } 25200 [] exChat = Except.ok [] :=
  (claim_C8_settings_resolution { exDbConfirm with settingsRows := [] } 1 25200 [] exChat
      0 exSettings).2.1 ⟨0, rfl⟩ (by decide)

end ShiftBot

namespace WishBot

open ShiftBot

/-- Wish row (`Wish` in `src/storage.py`; the fields the embedded operations
touch, plus representative payload fields). -/
structure Wish where
  id : Nat
  chat_id : Int
  title : String
  time_horizon : Option String
  due_date : Option Int
  status : String
  created_at : Int
  done_at : Option Int
deriving DecidableEq, Repr

/-- `ChatMeta` row of the wishlist storage.  The `src/storage.py` variant in
this repository has no `next_ping_at` column, yet `src/scheduler.py` reads and
writes one through `storage.due_chat_metas` / `storage.update_chat_meta`;
the field is modelled from the spec (§3 ChatPingSchedule: one nullable
`next_ping_at` UTC instant per chat, plus the chat's timezone). -/
structure ChatMeta where
  chat_id : Int
  timezone : String
  next_ping_at : Option Int
deriving DecidableEq, Repr

/-- The wishlist bot's relational store plus the timezone table. -/
structure WishStore where
  chatMetas : List ChatMeta
  wishes : List Wish
  tzTable : List (String × Int)
deriving DecidableEq, Repr

/-- `mark_done` (`src/storage.py`): load the wish by primary key; `None` when
missing; when its status is not "done", set status to "done" and stamp
`done_at` with the current UTC instant; otherwise change nothing; return the
refreshed wish and the store. -/
def mark_done (store : WishStore) (wishId : Nat) (now : Int) :
    Option Wish × WishStore :=
  match store.wishes.find? (fun v => decide (v.id = wishId)) with
  | none => (none, store)
  | some w =>
    if w.status ≠ "done" then
      let w' := { w with status := "done", done_at := some now }
      let updated := store.wishes.map (fun v => if v.id = wishId then w' else v)
      (some w', { store with wishes := updated })
    else (some w, store)

/-- Modelled from the spec: `due_chat_metas` is called by `src/scheduler.py`
but missing from `src/storage.py`; §4.4: return every chat row whose
`next_ping_at` is non-null and ≤ now. -/
def due_chat_metas (store : WishStore) (now : Int) : List ChatMeta :=
  store.chatMetas.filter (fun m =>
    match m.next_ping_at with
    | some t => decide (t ≤ now)
    | none => false)

/-- Modelled from the spec: `compute_next_ping` is imported by
`src/scheduler.py` from `utils` but missing from `src/utils.py`; §4.4:
convert `now` to the chat's local timezone (here a fixed offset in seconds),
add `days` calendar days, clamp the local time of day to exactly 10:00:00
(36000 seconds), convert back to UTC. -/
def compute_next_ping (now : Int) (off : Int) (days : Int) : Int :=
  (dayOf (now + off) + days) * secPerDay + 36000 - off

/-- Modelled from the spec: `update_chat_meta(chat_id, next_ping_at=...)` —
store the new instant on the row keyed by `chat_id`. -/
def update_chat_meta (store : WishStore) (chatId : Int) (t : Int) : WishStore :=
  let updated := store.chatMetas.map
    (fun m => if m.chat_id = chatId then { m with next_ping_at := some t } else m)
  { store with chatMetas := updated }

/-- `check_and_ping_chats` (`src/scheduler.py`): collect the due chats; for
each, the summary is read and sent — the send is wrapped in try/except and can
never abort the loop — then the next ping instant is computed (the timezone
resolution inside `compute_next_ping` has no handler, so a failure aborts the
remaining chats) and stored via `update_chat_meta`. -/
def check_and_ping_chats (store : WishStore) (now : Int) : Except String WishStore :=
  (due_chat_metas store now).foldlM
    (fun acc meta => do
      let off ← lookupTz store.tzTable meta.timezone
      pure (update_chat_meta acc meta.chat_id (compute_next_ping now off 14)))
    store

/-- Example wishlist chat row, due at instant 100. -/
def exMeta : ChatMeta := { chat_id := 500, timezone := "UTC", next_ping_at := some 100 }

/-- Example open wish. -/
def exWish : Wish :=
  { id := 1, chat_id := 500, title := "Picnic", time_horizon := none,
    due_date := none, status := "open", created_at := 0, done_at := none }

/-- Example wishlist store. -/
def exStore : WishStore :=
  { chatMetas := [exMeta], wishes := [exWish], tzTable := [("UTC", 0)] }

theorem except_pure_eq_ok {ε α : Type} (a : α) : (pure a : Except ε α) = Except.ok a := rfl

theorem find_map_update (l : List Wish) (wishId : Nat) (w' : Wish)
    (hid : w'.id = wishId)
    (hex : ∃ w0, l.find? (fun v => decide (v.id = wishId)) = some w0) :
    (l.map (fun v => if v.id = wishId then w' else v)).find?
      (fun v => decide (v.id = wishId)) = some w' := by
  induction l with
  | nil =>
    obtain ⟨w0, hw0⟩ := hex
    cases hw0
  | cons a l ih =>
    by_cases ha : a.id = wishId
    · simp [List.find?_cons, ha, hid]
    · have hex' : ∃ w0, l.find? (fun v => decide (v.id = wishId)) = some w0 := by
        obtain ⟨w0, hw0⟩ := hex
        rw [List.find?_cons] at hw0
        simp only [ha, decide_False] at hw0
        exact ⟨w0, hw0⟩
      simp [List.find?_cons, ha, ih hex']

/-- Claim C9: `mark_done` is idempotent — for a missing id it returns `None`
and leaves the store unchanged; for an existing wish not yet done, the first
call returns it with status "done" and `done_at` stamped with that call's
instant, and a second call at any later instant returns the identical wish and
identical store, changing no field; for a wish already done, the call returns
it unchanged and leaves the store unchanged. -/
theorem claim_C9_mark_done_idempotent (store : WishStore) (wishId : Nat) (t1 t2 : Int) :
    (store.wishes.find? (fun v => decide (v.id = wishId)) = none →
      mark_done store wishId t1 = (none, store))
    ∧ (∀ w, store.wishes.find? (fun v => decide (v.id = wishId)) = some w →
        w.status ≠ "done" →
        (mark_done store wishId t1).1 =
          some { w with status := "done", done_at := some t1 } ∧
        mark_done (mark_done store wishId t1).2 wishId t2 = mark_done store wishId t1)
    ∧ (∀ w, store.wishes.find? (fun v => decide (v.id = wishId)) = some w →
        w.status = "done" →
        mark_done store wishId t1 = (some w, store)) := by
  refine ⟨?_, ?_, ?_⟩
  · intro h
    unfold mark_done
    rw [h]
  · intro w hw hst
    have hid : w.id = wishId := by
      have := List.find?_some hw
      simpa using this
    have h1 : mark_done store wishId t1 =
        (some { w with status := "done", done_at := some t1 },
         { store with wishes := store.wishes.map (fun v =>
            if v.id = wishId then { w with status := "done", done_at := some t1 } else v) }) := by
      unfold mark_done
      rw [hw]
      dsimp only
      rw [if_pos hst]
    rw [h1]
    refine ⟨rfl, ?_⟩
    have hfind : (store.wishes.map (fun v =>
        if v.id = wishId then { w with status := "done", done_at := some t1 } else v)).find?
        (fun v => decide (v.id = wishId)) =
        some { w with status := "done", done_at := some t1 } :=
      find_map_update store.wishes wishId _ (by simpa using hid) ⟨w, hw⟩
    unfold mark_done
    dsimp only
    rw [hfind]
    dsimp only
    rw [if_neg (fun hne => hne rfl)]
  · intro w hw hst
    unfold mark_done
    rw [hw]
    dsimp only
    rw [if_neg (fun hne => hne hst)]

/-- Witness for claim C9 at `exStore`: marking wish 1 done at instant 5, then
again at instant 9, and calling `mark_done` for the missing id 99. -/
theorem claim_C9_witness :
    (mark_done exStore 1 5).1 = some { exWish with status := "done", done_at := some 5 }
    ∧ mark_done (mark_done exStore 1 5).2 1 9 = mark_done exStore 1 5
    ∧ mark_done exStore 99 5 = (none, exStore) := by
  have h2 := (claim_C9_mark_done_idempotent exStore 1 5 9).2.1 exWish (by rfl) (by decide)
  have h3 := (claim_C9_mark_done_idempotent exStore 99 5 9).1 (by rfl)
  exact ⟨h2.1, h2.2, h3⟩

/-- Claim C7: `due_chat_metas` returns exactly the chats whose stored
`next_ping_at` is non-null and ≤ now; the rescheduled instant is now converted
to the chat's local timezone, moved 14 calendar days ahead, clamped to local
10:00:00 and converted back to UTC — always strictly greater than now (for any
fixed offset); after the tick processes a due chat, every stored row of that
chat carries exactly this instant. -/
theorem claim_C7_ping_reschedule (store : WishStore) (now : Int) (m : ChatMeta)
    (off : Int) :
    (m ∈ due_chat_metas store now ↔
      (m ∈ store.chatMetas ∧ ∃ t0, m.next_ping_at = some t0 ∧ t0 ≤ now))
    ∧ now < compute_next_ping now off 14
    ∧ (∀ m' ∈ (update_chat_meta store m.chat_id (compute_next_ping now off 14)).chatMetas,
        m'.chat_id = m.chat_id → m'.next_ping_at = some (compute_next_ping now off 14))
    ∧ (store.chatMetas = [m] →
        (∃ t0, m.next_ping_at = some t0 ∧ t0 ≤ now) →
        lookupTz store.tzTable m.timezone = Except.ok off →
        check_and_ping_chats store now =
          Except.ok (update_chat_meta store m.chat_id (compute_next_ping now off 14))) := by
  refine ⟨?_, ?_, ?_, ?_⟩
  · unfold due_chat_metas
    rw [List.mem_filter]
    cases hnp : m.next_ping_at with
    | none =>
      constructor
      · rintro ⟨-, hfalse⟩
        cases hfalse
      · rintro ⟨-, t0, ht0, -⟩
        cases ht0
    | some t =>
      constructor
      · rintro ⟨hmem, hdec⟩
        simp only [decide_eq_true_eq] at hdec
        exact ⟨hmem, t, rfl, hdec⟩
      · rintro ⟨hmem, t0, ht0, hle⟩
        injection ht0 with ht0
        subst ht0
        exact ⟨hmem, by simpa using hle⟩
  · unfold compute_next_ping dayOf secPerDay
    omega
  · intro m' hm' hcid
    unfold update_chat_meta at hm'
    dsimp only at hm'
    obtain ⟨v, hv, heq⟩ := List.mem_map.mp hm'
    by_cases hvc : v.chat_id = m.chat_id
    · rw [if_pos hvc] at heq
      rw [← heq]
    · rw [if_neg hvc] at heq
      rw [← heq] at hcid
      exact absurd hcid hvc
  · intro hmetas hdue htzok
    obtain ⟨t0, h1, h2⟩ := hdue
    have hdl : due_chat_metas store now = [m] := by
      unfold due_chat_metas
      rw [hmetas, List.filter_cons]
      simp [h1, h2]
    unfold check_and_ping_chats
    rw [hdl, List.foldlM_cons, htzok, except_bind_ok, except_pure_eq_ok,
      except_bind_ok, List.foldlM_nil, except_pure_eq_ok]

/-- Witness for claim C7 at `exStore`: the chat due at 100 is listed at
now = 200, the rescheduled instant exceeds 200, and the tick stores it. -/
theorem claim_C7_witness :
    exMeta ∈ due_chat_metas exStore 200
    ∧ 200 < compute_next_ping 200 0 14
    ∧ check_and_ping_chats exStore 200 =
        Except.ok (update_chat_meta exStore 500 (compute_next_ping 200 0 14)) := by
  have h := claim_C7_ping_reschedule exStore 200 exMeta 0
  refine ⟨?_, h.2.1, ?_⟩
  · exact (h.1).mpr ⟨by decide, 100, rfl, by decide⟩
  · exact h.2.2.2 rfl ⟨100, rfl, by decide⟩ (by rfl)

end WishBot
